import Mathlib

/-! Shallow embedding of the WhatsApp expense bot (src/app.py).

Python strings are modelled at the level of their character sequences
(`List Char`); the REAL amounts are idealised as exact rationals `Rat`
(binary floating-point rounding is abstracted away); the two SQLite
tables are modelled as in-memory lists paired with their AUTOINCREMENT
counters.  The zero-shot classifier and the wall clock (the `date`
column's `datetime('now')` default, a string `"YYYY-MM-DD HH:MM:SS"`)
are external inputs and enter as explicit parameters. -/

namespace ExpenseBot

set_option maxRecDepth 40000

/-- Model of Python `str.strip()` (src/app.py line 81): drop leading and
trailing whitespace.  Lean's `Char.isWhitespace` covers the ASCII
whitespace characters; the exotic Unicode space characters Python also
strips are not modelled. -/
def pyStrip (s : String) : String :=
  String.mk (((s.data.dropWhile Char.isWhitespace).reverse.dropWhile Char.isWhitespace).reverse)

/-- Model of Python `str.lower()` (line 82): lowercase each character.
`Char.toLower` handles ASCII; Hebrew letters, digits and punctuation are
fixed points of both functions. -/
def pyLower (s : String) : String :=
  String.mk (s.data.map Char.toLower)

/-- Model of Python `str.startswith(pre)` (lines 85-90, 104, 123, 135,
144, 157, 170): `pre` is a prefix of the character sequence of `s`. -/
def pyStartswith (s pre : String) : Bool :=
  pre.data.isPrefixOf s.data

/-- Helper for `pySplit`: scan the characters, accumulating the current
word in reverse. -/
def pyWordsAux (cur : List Char) : List Char → List (List Char)
  | [] => if cur.isEmpty then [] else [cur.reverse]
  | c :: cs =>
    if c.isWhitespace then
      if cur.isEmpty then pyWordsAux [] cs else cur.reverse :: pyWordsAux [] cs
    else
      pyWordsAux (c :: cur) cs

/-- Model of Python `str.split()` with no argument (lines 106, 146, 159,
172): split on runs of whitespace, discarding empty pieces. -/
def pySplit (s : String) : List String :=
  (pyWordsAux [] s.data).map String.mk

/-- Numeric value of a list of decimal digit characters. -/
def natOfDigits (l : List Char) : Nat :=
  l.foldl (fun a c => 10 * a + (c.toNat - 48)) 0

/-- Value of an integer part `ip` and a fraction part `fp` of decimal
digits, as an exact rational. -/
def decMantissa (ip fp : List Char) : Rat :=
  mkRat (Int.ofNat (natOfDigits ip * 10 ^ fp.length + natOfDigits fp)) (10 ^ fp.length)

/-- Apply a decimal exponent to a mantissa. -/
def applyExp (m : Rat) (eneg : Bool) (e : Nat) : Rat :=
  if eneg then mkRat m.num (m.den * 10 ^ e)
  else mkRat (m.num * Int.ofNat (10 ^ e)) m.den

/-- Model of Python `float(token)` (lines 112, 177) on a whitespace-free
token, idealised to an exact rational: an optional sign, decimal digits
with an optional fraction part (at least one digit overall), and an
optional exponent part.  The `nan`/`inf` words, underscore digit
grouping and non-ASCII digits that CPython additionally accepts are not
modelled, and the rounding to binary double precision is dropped. -/
def pyFloat (s : String) : Option Rat :=
  let cs := s.data
  let sign : Bool × List Char :=
    match cs with
    | '+' :: r => (false, r)
    | '-' :: r => (true, r)
    | r => (false, r)
  let neg := sign.1
  let cs1 := sign.2
  let ip := cs1.takeWhile Char.isDigit
  let cs2 := cs1.dropWhile Char.isDigit
  let frac : List Char × List Char :=
    match cs2 with
    | '.' :: r => (r.takeWhile Char.isDigit, r.dropWhile Char.isDigit)
    | r => ([], r)
  let fp := frac.1
  let cs3 := frac.2
  if ip.isEmpty && fp.isEmpty then none
  else
    let m := decMantissa ip fp
    match cs3 with
    | [] => some (if neg then -m else m)
    | e :: r =>
      if e == 'e' || e == 'E' then
        let esign : Bool × List Char :=
          match r with
          | '+' :: r2 => (false, r2)
          | '-' :: r2 => (true, r2)
          | r2 => (false, r2)
        let ed := esign.2.takeWhile Char.isDigit
        let rest := esign.2.dropWhile Char.isDigit
        if ed.isEmpty || !rest.isEmpty then none
        else
          let v := applyExp m esign.1 (natOfDigits ed)
          some (if neg then -v else v)
      else none

/-- Round a rational to the nearest integer, ties to even (the rounding
Python's fixed-point format uses).  The fractional part `q - floor q`
is `rnum / den`; it is compared with one half by cross-multiplying. -/
def roundHalfEven (q : Rat) : Int :=
  let f := q.floor
  let rnum := q.num - f * (q.den : Int)
  if 2 * rnum < (q.den : Int) then f
  else if (q.den : Int) < 2 * rnum then f + 1
  else if f % 2 = 0 then f else f + 1

/-- Two-digit zero-padded rendering of a remainder below 100. -/
def pad2 (n : Nat) : String :=
  if n < 10 then "0" ++ toString n else toString n

/-- Model of Python `f-string` formatting `{x:.2f}` (lines 120, 131,
189, 191), on the exact-rational idealisation of the float. -/
def fmt2 (q : Rat) : String :=
  let c := roundHalfEven (mkRat (q.num * 100) q.den)
  let a := c.natAbs
  (if c < 0 then "-" else "") ++ toString (a / 100) ++ "." ++ pad2 (a % 100)

/-- A row of the `expenses` table (lines 18-26): id INTEGER PRIMARY KEY
AUTOINCREMENT, name TEXT, amount REAL, category TEXT, date TEXT DEFAULT
(datetime('now')). -/
structure Expense where
  id : Nat
  name : String
  amount : Rat
  category : String
  date : String
deriving DecidableEq

/-- The process-wide database state: the `categories` table (id, unique
name) and the `expenses` table, each with its AUTOINCREMENT counter. -/
structure St where
  categories : List (Nat × String)
  catNext : Nat
  expenses : List Expense
  expNext : Nat
deriving DecidableEq

/-- Line 38: the six literal default category names (Hebrew). -/
def default_categories : List String :=
  ["אוכל", "תחבורה", "בידור", "מכולת", "חשבונות", "אחר"]

/-- Lines 39-43: seed the default categories when the `categories` table
is empty at startup, otherwise insert nothing. -/
def bootstrap (st : St) : St :=
  if st.categories.length = 0 then
    default_categories.foldl
      (fun s nm => { s with categories := s.categories ++ [(s.catNext, nm)], catNext := s.catNext + 1 })
      st
  else st

/-- Lines 55-59: `SELECT name FROM categories`, in storage (insertion)
order. -/
def get_candidate_labels (st : St) : List String :=
  st.categories.map (fun c => c.2)

/-- Lines 69-76: the fixed help message. -/
def help_message : String :=
  "שלום! השתמש בפקודות הבאות:\n- הוצאה <שם> <סכום>\n- סיכום\n- רשימת קטגוריות\n- הוספת קטגוריה <שם הקטגוריה>\n- מחיקת קטגוריה <שם הקטגוריה>\n- מחיקה <שם> <סכום> (למחיקת הוצאה)"

/-- Lines 115-119: `INSERT INTO expenses (name, amount, category)`; the
id comes from the AUTOINCREMENT counter and the date from the
`datetime('now')` default, here the explicit `now` parameter. -/
def add_expense (st : St) (nm : String) (amt : Rat) (cat : String) (now : String) : St :=
  { st with expenses := st.expenses ++ [⟨st.expNext, nm, amt, cat, now⟩], expNext := st.expNext + 1 }

/-- Lines 104-122: the expense-entry branch.  `classify` stands for the
external zero-shot classifier (lines 62-66), modelled as a total
function (classifier or storage failures, which the bare `except` would
also turn into the same literal reply, are not modelled). -/
def expenseEntry (classify : String → List String → String) (now : String) (st : St)
    (incoming : String) : String × St :=
  let parts := pySplit incoming
  if parts.length < 3 then
    ("⚠️ נא להשתמש בפורמט: הוצאה <שם> <סכום>", st)
  else
    match pyFloat (parts.getLastD "") with
    | none => ("⚠️ שגיאה בעיבוד ההוצאה. ודא שהסכום הוא מספר תקין.", st)
    | some amount =>
      let name := " ".intercalate ((parts.drop 1).dropLast)
      let category := classify name (get_candidate_labels st)
      ("✅ הוצאה נרשמה:\nשם: '" ++ name ++ "'\nסכום: ₪" ++ fmt2 amount ++ "\nקטגוריה: " ++ category,
       add_expense st name amount category now)

/-- Model of SQLite `strftime('%Y-%m', date)` (lines 125, 127) on a
canonical `"YYYY-MM-DD HH:MM:SS"` string: its first seven characters. -/
def takeYM (date : String) : String :=
  String.mk (date.data.take 7)

/-- Model of `datetime.now().strftime("%B")` (line 126): the English
month name of the `"MM"` digits at positions 5-6 of the clock string. -/
def monthNameOf : String → String
  | "01" => "January"
  | "02" => "February"
  | "03" => "March"
  | "04" => "April"
  | "05" => "May"
  | "06" => "June"
  | "07" => "July"
  | "08" => "August"
  | "09" => "September"
  | "10" => "October"
  | "11" => "November"
  | "12" => "December"
  | _ => ""

/-- The `%B` month name of a canonical clock string. -/
def strftimeB (now : String) : String :=
  monthNameOf (String.mk ((now.data.drop 5).take 2))

/-- The rows of the given calendar month: `WHERE strftime('%Y-%m', date)
= ?` (line 127). -/
def monthRows (rows : List Expense) (ym : String) : List Expense :=
  rows.filter (fun e => takeYM e.date == ym)

/-- The distinct values of a list, keeping first occurrences in order. -/
def firstOccs : List String → List String
  | [] => []
  | c :: r => c :: (firstOccs r).filter (fun d => d ≠ c)

/-- `SUM(amount)` over the month's rows of one category. -/
def categoryTotal (rows : List Expense) (ym : String) (cat : String) : Rat :=
  (((monthRows rows ym).filter (fun e => e.category == cat)).map (fun e => e.amount)).sum

/-- Lines 127-129: `SELECT category, SUM(amount) FROM expenses WHERE
strftime('%Y-%m', date) = ? GROUP BY category`, one row per category of
the month.  SQLite's output order for a GROUP BY is engine-defined; the
model lists the groups in first-occurrence order. -/
def sumByCategory (rows : List Expense) (ym : String) : List (String × Rat) :=
  (firstOccs ((monthRows rows ym).map (fun e => e.category))).map
    (fun cat => (cat, categoryTotal rows ym cat))

/-- Lines 123-134: the monthly summary branch. -/
def summaryCmd (now : String) (st : St) : String × St :=
  let monthName := strftimeB now
  let expenses := sumByCategory st.expenses (takeYM now)
  if expenses.isEmpty then
    ("אין הוצאות רשומות עבור " ++ monthName ++ " עדיין.", st)
  else
    ("📊 סיכום חודשי עבור " ++ monthName ++ ":\n" ++
      "\n".intercalate (expenses.map (fun p => p.1 ++ ": ₪" ++ fmt2 p.2)), st)

/-- Lines 135-143: the list-categories branch. -/
def listCategoriesCmd (st : St) : String × St :=
  if st.categories.isEmpty then
    ("לא נמצאו קטגוריות.", st)
  else
    ("📚 קטגוריות:\n" ++ "\n".intercalate (get_candidate_labels st), st)

/-- Lines 144-156: the add-category branch.  The UNIQUE constraint on
`categories.name` is modelled by the membership test; the `any`-true
case is the `sqlite3.IntegrityError` handler of lines 155-156. -/
def addCategoryCmd (st : St) (incoming : String) : String × St :=
  let parts := pySplit incoming
  if parts.length < 3 then
    ("⚠️ נא להשתמש בפורמט: הוספת קטגוריה <שם הקטגוריה>", st)
  else
    let newCategory := " ".intercalate (parts.drop 2)
    if st.categories.any (fun c => c.2 == newCategory) then
      ("⚠️ קטגוריה '" ++ newCategory ++ "' כבר קיימת.", st)
    else
      ("✅ קטגוריה '" ++ newCategory ++ "' נוספה.",
       { st with categories := st.categories ++ [(st.catNext, newCategory)], catNext := st.catNext + 1 })

/-- Lines 157-169: the delete-category branch: `DELETE FROM categories
WHERE name = ?`, then the `rowcount` test. -/
def deleteCategoryCmd (st : St) (incoming : String) : String × St :=
  let parts := pySplit incoming
  if parts.length < 3 then
    ("⚠️ נא להשתמש בפורמט: מחיקת קטגוריה <שם הקטגוריה>", st)
  else
    let delCategory := " ".intercalate (parts.drop 2)
    if st.categories.any (fun c => c.2 == delCategory) then
      ("✅ קטגוריה '" ++ delCategory ++ "' נמחקה.",
       { st with categories := st.categories.filter (fun c => ¬ c.2 == delCategory) })
    else
      ("⚠️ קטגוריה '" ++ delCategory ++ "' לא נמצאה.", st)

/-- Strict lexicographic comparison of character sequences by code
point, the order SQLite's BINARY collation gives TEXT values (for the
ASCII datetime strings byte order and code-point order coincide). -/
def lexLt : List Char → List Char → Bool
  | _, [] => false
  | [], _ :: _ => true
  | a :: as, b :: bs =>
    if a.toNat < b.toNat then true
    else if b.toNat < a.toNat then false
    else lexLt as bs

/-- Strict BINARY-collation comparison of two TEXT values. -/
def strLtb (a b : String) : Bool :=
  lexLt a.data b.data

/-- Scan of the matching rows keeping the latest date seen so far; on an
equal date the later row in scan order wins.  This realises `ORDER BY
date DESC LIMIT 1` (line 182); the tie order among equal dates is
engine-defined in SQLite and the model fixes one deterministic choice. -/
def pickLatest : Option Expense → List Expense → Option Expense
  | acc, [] => acc
  | none, e :: rest => pickLatest (some e) rest
  | some b, e :: rest =>
    pickLatest (some (if strLtb b.date e.date || b.date == e.date then e else b)) rest

/-- Lines 182-184: `SELECT id, date FROM expenses WHERE name=? AND
amount=? ORDER BY date DESC LIMIT 1`.  The TEXT dates compare under the
BINARY collation, i.e. lexicographically, which the `String` order
realises on canonical datetime strings. -/
def selectLatest (rows : List Expense) (nm : String) (amt : Rat) : Option Expense :=
  pickLatest none (rows.filter (fun e => e.name == nm && e.amount == amt))

/-- Lines 170-191: the delete-expense branch; the matched row is removed
by its id (`DELETE FROM expenses WHERE id=?`, line 187). -/
def deleteExpenseCmd (st : St) (incoming : String) : String × St :=
  let parts := pySplit incoming
  if parts.length < 3 then
    ("⚠️ נא להשתמש בפורמט: מחיקה <שם> <סכום>", st)
  else
    match pyFloat (parts.getLastD "") with
    | none => ("⚠️ נא לספק מספר תקין עבור הסכום.", st)
    | some amount =>
      let name := " ".intercalate ((parts.drop 1).dropLast)
      match selectLatest st.expenses name amount with
      | some row =>
        ("✅ הוצאה '" ++ name ++ "' בסכום ₪" ++ fmt2 amount ++ " נמחקה.",
         { st with expenses := st.expenses.filter (fun e => e.id ≠ row.id) })
      | none =>
        ("⚠️ לא נמצאה הוצאה תואמת בשם '" ++ name ++ "' עם סכום ₪" ++ fmt2 amount ++ ".", st)

/-- Lines 101-193: the ordered command dispatch on the (possibly
rewritten) message, first matching prefix wins, final `else` replies
with the help text. -/
def whatsappDispatch (classify : String → List String → String) (now : String) (st : St)
    (incoming : String) : String × St :=
  let lower := pyLower incoming
  if pyStartswith lower "הוצאה" then expenseEntry classify now st incoming
  else if pyStartswith lower "סיכום" then summaryCmd now st
  else if pyStartswith lower "רשימת קטגוריות" then listCategoriesCmd st
  else if pyStartswith lower "הוספת קטגוריה" then addCategoryCmd st incoming
  else if pyStartswith lower "מחיקת קטגוריה" then deleteCategoryCmd st incoming
  else if pyStartswith lower "מחיקה " then deleteExpenseCmd st incoming
  else (help_message, st)

/-- Lines 79-99 followed by the dispatch: strip the body, and when no
command keyword matches the lowercased text, either reply with the help
message (no digit anywhere) or prepend the expense keyword and
re-dispatch.  A missing `Body` field defaults to the empty string
(line 81). -/
def whatsapp (classify : String → List String → String) (now : String) (st : St)
    (body : String) : String × St :=
  let incoming := pyStrip body
  let lower := pyLower incoming
  if !(pyStartswith lower "הוצאה" || pyStartswith lower "סיכום" ||
       pyStartswith lower "רשימת קטגוריות" || pyStartswith lower "הוספת קטגוריה" ||
       pyStartswith lower "מחיקת קטגוריה" || pyStartswith lower "מחיקה ") then
    if !(incoming.data.any Char.isDigit) then
      (help_message, st)
    else
      whatsappDispatch classify now st ("הוצאה " ++ incoming)
  else
    whatsappDispatch classify now st incoming

/-! Helper lemmas about the embedded Python string primitives. -/

theorem isPrefixOf_append_left {p l : List Char} (r : List Char) (h : p.isPrefixOf l = true) :
    p.isPrefixOf (l ++ r) = true := by
  induction p generalizing l with
  | nil => exact List.isPrefixOf_nil_left
  | cons a as ih =>
    cases l with
    | nil => simp [List.isPrefixOf] at h
    | cons b bs =>
      simp only [List.isPrefixOf, List.cons_append, Bool.and_eq_true] at h ⊢
      exact ⟨h.1, ih h.2⟩

theorem prefixes_comparable : ∀ (a b s : List Char),
    a.isPrefixOf s = true → b.isPrefixOf s = true →
    a.isPrefixOf b = true ∨ b.isPrefixOf a = true := by
  intro a
  induction a with
  | nil => intro b s _ _; left; exact List.isPrefixOf_nil_left
  | cons x as ih =>
    intro b s ha hb
    cases b with
    | nil => right; exact List.isPrefixOf_nil_left
    | cons y bs =>
      cases s with
      | nil => simp [List.isPrefixOf] at ha
      | cons z ss =>
        simp only [List.isPrefixOf, Bool.and_eq_true] at ha hb
        have hxy : (x == y) = true := by
          rw [eq_of_beq ha.1, eq_of_beq hb.1]
          exact beq_self_eq_true z
        rcases ih bs ss ha.2 hb.2 with h | h
        · left
          simp only [List.isPrefixOf, Bool.and_eq_true]
          exact ⟨hxy, h⟩
        · right
          simp only [List.isPrefixOf, Bool.and_eq_true]
          refine ⟨?_, h⟩
          rw [eq_of_beq hb.1, eq_of_beq ha.1]
          exact beq_self_eq_true z

theorem pyStartswith_excl {s k1 : String} (k2 : String) (h : pyStartswith s k1 = true)
    (h12 : k1.data.isPrefixOf k2.data = false)
    (h21 : k2.data.isPrefixOf k1.data = false) :
    pyStartswith s k2 = false := by
  unfold pyStartswith at h ⊢
  cases hx : k2.data.isPrefixOf s.data with
  | false => rfl
  | true =>
    rcases prefixes_comparable _ _ _ h hx with hh | hh
    · rw [h12] at hh; cases hh
    · rw [h21] at hh; cases hh

theorem pyStartswith_append_keyword (kw pre x : String)
    (hlow : pre.data.map Char.toLower = pre.data)
    (hpre : kw.data.isPrefixOf pre.data = true) :
    pyStartswith (pyLower (pre ++ x)) kw = true := by
  unfold pyStartswith pyLower
  show kw.data.isPrefixOf ((pre ++ x).data.map Char.toLower) = true
  have hdata : (pre ++ x).data = pre.data ++ x.data := rfl
  rw [hdata, List.map_append, hlow]
  exact isPrefixOf_append_left _ hpre

/-! Helper lemmas for the BINARY-collation comparison. -/

theorem lexLt_irrefl : ∀ l : List Char, lexLt l l = false
  | [] => rfl
  | a :: as => by simp [lexLt, lexLt_irrefl as]

theorem lexLt_asymm : ∀ a b : List Char, lexLt a b = true → lexLt b a = false
  | a, [], h => by cases a <;> simp [lexLt] at h
  | [], _ :: _, _ => rfl
  | a :: as, b :: bs, h => by
    by_cases h1 : a.toNat < b.toNat
    · have h2 : ¬ b.toNat < a.toNat := by omega
      simp [lexLt, h1, h2]
    · by_cases h2 : b.toNat < a.toNat
      · simp [lexLt, h1, h2] at h
      · have h3 := lexLt_asymm as bs (by simpa [lexLt, h1, h2] using h)
        simp [lexLt, h1, h2, h3]

theorem lexLt_false_trans : ∀ a b c : List Char,
    lexLt a b = false → lexLt b c = false → lexLt a c = false
  | a, _, [], _, _ => by cases a <;> rfl
  | _, [], _ :: _, _, h2 => by simp [lexLt] at h2
  | [], _ :: _, _ :: _, h1, _ => by simp [lexLt] at h1
  | a :: as, b :: bs, c :: cs, h1, h2 => by
    by_cases hab : a.toNat < b.toNat
    · simp [lexLt, hab] at h1
    · by_cases hbc : b.toNat < c.toNat
      · simp [lexLt, hbc] at h2
      · by_cases hac : a.toNat < c.toNat
        · omega
        · by_cases hca : c.toNat < a.toNat
          · simp [lexLt, hac, hca]
          · have hba : ¬ b.toNat < a.toNat := by omega
            have hcb : ¬ c.toNat < b.toNat := by omega
            simp only [lexLt, if_neg hab, if_neg hba] at h1
            simp only [lexLt, if_neg hbc, if_neg hcb] at h2
            simp only [lexLt, if_neg hac, if_neg hca]
            exact lexLt_false_trans as bs cs h1 h2

/-! Helper lemmas about the summary aggregation. -/

theorem mem_firstOccs {x : String} : ∀ {l : List String}, x ∈ firstOccs l ↔ x ∈ l := by
  intro l
  induction l with
  | nil => simp [firstOccs]
  | cons c r ih =>
    simp only [firstOccs, List.mem_cons, List.mem_filter, decide_eq_true_eq]
    constructor
    · rintro (rfl | ⟨hmem, _⟩)
      · exact Or.inl rfl
      · exact Or.inr (ih.mp hmem)
    · rintro (rfl | hmem)
      · exact Or.inl rfl
      · by_cases hc : x = c
        · exact Or.inl hc
        · exact Or.inr ⟨ih.mpr hmem, hc⟩

theorem lookup_keyed_map (f : String → Rat) (cat : String) :
    ∀ l : List String, cat ∈ l →
      List.lookup cat (l.map (fun c => (c, f c))) = some (f cat) := by
  intro l
  induction l with
  | nil => intro h; exact absurd h (List.not_mem_nil cat)
  | cons c r ih =>
    intro h
    by_cases hc : cat = c
    · subst hc
      simp [List.lookup]
    · have hr : cat ∈ r := by
        rcases List.mem_cons.mp h with h1 | h1
        · exact absurd h1 hc
        · exact h1
      have hb : (cat == c) = false := by
        cases hx : cat == c with
        | false => rfl
        | true => exact absurd (eq_of_beq hx) hc
      simp only [List.map_cons, List.lookup, hb]
      exact ih hr

/-! Helper lemmas about the latest-matching-row selection. -/

theorem pickLatest_some_spec : ∀ (l : List Expense) (b r : Expense),
    pickLatest (some b) l = some r →
    (r = b ∨ r ∈ l) ∧ strLtb r.date b.date = false ∧
      ∀ e ∈ l, strLtb r.date e.date = false := by
  intro l
  induction l with
  | nil =>
    intro b r h
    simp only [pickLatest, Option.some.injEq] at h
    subst h
    exact ⟨Or.inl rfl, lexLt_irrefl _, fun e he => absurd he (List.not_mem_nil e)⟩
  | cons e rest ih =>
    intro b r h
    simp only [pickLatest] at h
    by_cases hcond : (strLtb b.date e.date || b.date == e.date) = true
    · rw [if_pos hcond] at h
      obtain ⟨hmem, hge, hall⟩ := ih e r h
      have hbe : strLtb e.date b.date = false := by
        rcases Bool.or_eq_true_iff.mp hcond with h1 | h1
        · exact lexLt_asymm _ _ h1
        · rw [eq_of_beq h1]
          exact lexLt_irrefl _
      refine ⟨?_, lexLt_false_trans _ _ _ hge hbe, ?_⟩
      · rcases hmem with h1 | h1
        · exact Or.inr (h1 ▸ List.mem_cons_self e rest)
        · exact Or.inr (List.mem_cons_of_mem e h1)
      · intro x hx
        rcases List.mem_cons.mp hx with h1 | h1
        · rw [h1]
          exact hge
        · exact hall x h1
    · rw [if_neg hcond] at h
      obtain ⟨hmem, hge, hall⟩ := ih b r h
      have hbe : strLtb b.date e.date = false := by
        cases hx : strLtb b.date e.date with
        | false => rfl
        | true => exact absurd (Bool.or_eq_true_iff.mpr (Or.inl hx)) hcond
      refine ⟨?_, hge, ?_⟩
      · rcases hmem with h1 | h1
        · exact Or.inl h1
        · exact Or.inr (List.mem_cons_of_mem e h1)
      · intro x hx
        rcases List.mem_cons.mp hx with h1 | h1
        · rw [h1]
          exact lexLt_false_trans _ _ _ hge hbe
        · exact hall x h1

theorem pickLatest_some_ne_none : ∀ (l : List Expense) (b : Expense),
    pickLatest (some b) l ≠ none := by
  intro l
  induction l with
  | nil => intro b h; cases h
  | cons e rest ih =>
    intro b h
    simp only [pickLatest] at h
    exact ih _ h

theorem selectLatest_some_spec (rows : List Expense) (nm : String) (amt : Rat) (r : Expense)
    (h : selectLatest rows nm amt = some r) :
    r ∈ rows ∧ r.name = nm ∧ r.amount = amt ∧
      ∀ e ∈ rows, e.name = nm → e.amount = amt → strLtb r.date e.date = false := by
  unfold selectLatest at h
  cases hm : rows.filter (fun e => e.name == nm && e.amount == amt) with
  | nil =>
    rw [hm] at h
    cases h
  | cons m mrest =>
    rw [hm] at h
    simp only [pickLatest] at h
    obtain ⟨hmem, hge, hall⟩ := pickLatest_some_spec mrest m r h
    have hrfilter : r ∈ rows.filter (fun e => e.name == nm && e.amount == amt) := by
      rw [hm]
      rcases hmem with h1 | h1
      · exact h1 ▸ List.mem_cons_self m mrest
      · exact List.mem_cons_of_mem m h1
    have hr := List.mem_filter.mp hrfilter
    have hrp : (r.name == nm) = true ∧ (r.amount == amt) = true := by
      have := hr.2
      simpa [Bool.and_eq_true] using this
    refine ⟨hr.1, eq_of_beq hrp.1, eq_of_beq hrp.2, ?_⟩
    intro e he hen hea
    have hef : e ∈ rows.filter (fun e => e.name == nm && e.amount == amt) := by
      refine List.mem_filter.mpr ⟨he, ?_⟩
      simp [hen, hea]
    rw [hm] at hef
    rcases List.mem_cons.mp hef with h1 | h1
    · rw [h1]
      exact hge
    · exact hall e h1

theorem selectLatest_none_of_no_match (rows : List Expense) (nm : String) (amt : Rat)
    (h : ∀ e ∈ rows, ¬ (e.name = nm ∧ e.amount = amt)) :
    selectLatest rows nm amt = none := by
  unfold selectLatest
  have hfil : rows.filter (fun e => e.name == nm && e.amount == amt) = [] := by
    rw [List.filter_eq_nil_iff]
    intro e he
    simp only [Bool.and_eq_true, beq_iff_eq, not_and]
    intro h1 h2
    exact h e he ⟨h1, h2⟩
  rw [hfil]
  rfl

/-! The claims. -/

/-- C2: an expense-entry message splitting into at least three whitespace
tokens whose last token parses as a decimal number yields that token's value
as the amount and the tokens between the keyword and the amount, joined by
single spaces, as the name, and exactly that row is inserted; a message with
fewer than three tokens fails with the FormatError usage-hint reply and no
row is inserted. -/
theorem c2_expense_entry_parse (classify : String → List String → String) (now : String)
    (st : St) (incoming nm : String) (amt : Rat)
    (hnm : nm = " ".intercalate (((pySplit incoming).drop 1).dropLast)) :
    (3 ≤ (pySplit incoming).length → pyFloat ((pySplit incoming).getLastD "") = some amt →
      expenseEntry classify now st incoming =
        ("✅ הוצאה נרשמה:\nשם: '" ++ nm ++ "'\nסכום: ₪" ++ fmt2 amt ++ "\nקטגוריה: " ++
            classify nm (get_candidate_labels st),
         add_expense st nm amt (classify nm (get_candidate_labels st)) now)) ∧
    ((pySplit incoming).length < 3 →
      expenseEntry classify now st incoming = ("⚠️ נא להשתמש בפורמט: הוצאה <שם> <סכום>", st)) := by
  subst hnm
  constructor
  · intro h3 hamt
    unfold expenseEntry
    rw [if_neg (by omega), hamt]
  · intro hlt
    unfold expenseEntry
    rw [if_pos hlt]

/-- Witness for C2 at the message "הוצאה קפה 12.5" (both the three-token
success and the two-token failure are exercised on concrete inputs). -/
theorem c2_expense_entry_parse_witness :
    expenseEntry (fun _ _ => "אחר") "2025-01-15 10:00:00" ⟨[(1, "אוכל")], 2, [], 1⟩
        "הוצאה קפה 12.5" =
      ("✅ הוצאה נרשמה:\nשם: 'קפה'\nסכום: ₪12.50\nקטגוריה: אחר",
       ⟨[(1, "אוכל")], 2, [⟨1, "קפה", mkRat 25 2, "אחר", "2025-01-15 10:00:00"⟩], 2⟩) ∧
    expenseEntry (fun _ _ => "אחר") "2025-01-15 10:00:00" ⟨[(1, "אוכל")], 2, [], 1⟩
        "הוצאה 12.5" =
      ("⚠️ נא להשתמש בפורמט: הוצאה <שם> <סכום>", ⟨[(1, "אוכל")], 2, [], 1⟩) := by
  constructor
  · have h := (c2_expense_entry_parse (fun _ _ => "אחר") "2025-01-15 10:00:00"
        ⟨[(1, "אוכל")], 2, [], 1⟩ "הוצאה קפה 12.5" "קפה" (mkRat 25 2) (by decide)).1
        (by decide) (by decide)
    rw [h]
    decide
  · exact (c2_expense_entry_parse (fun _ _ => "אחר") "2025-01-15 10:00:00"
        ⟨[(1, "אוכל")], 2, [], 1⟩ "הוצאה 12.5" "" (mkRat 25 2) (by decide)).2 (by decide)

/-- C6: an expense-entry message of at least three whitespace tokens whose
last token is not a valid decimal number fails with the literal
numeric-parse reply and inserts no row (the state is returned unchanged). -/
theorem c6_expense_entry_bad_amount (classify : String → List String → String) (now : String)
    (st : St) (incoming : String) (h3 : 3 ≤ (pySplit incoming).length)
    (hbad : pyFloat ((pySplit incoming).getLastD "") = none) :
    expenseEntry classify now st incoming =
      ("⚠️ שגיאה בעיבוד ההוצאה. ודא שהסכום הוא מספר תקין.", st) := by
  unfold expenseEntry
  rw [if_neg (by omega), hbad]

/-- Witness for C6 at the message "הוצאה קפה אבג". -/
theorem c6_expense_entry_bad_amount_witness :
    expenseEntry (fun _ _ => "אחר") "2025-01-15 10:00:00" ⟨[(1, "אוכל")], 2, [], 1⟩
        "הוצאה קפה אבג" =
      ("⚠️ שגיאה בעיבוד ההוצאה. ודא שהסכום הוא מספר תקין.", ⟨[(1, "אוכל")], 2, [], 1⟩) :=
  c6_expense_entry_bad_amount (fun _ _ => "אחר") "2025-01-15 10:00:00"
    ⟨[(1, "אוכל")], 2, [], 1⟩ "הוצאה קפה אבג" (by decide) (by decide)

/-- C4: adding a category whose name is absent succeeds and grows the
category table by exactly one row; an immediately following add of the same
name hits the uniqueness constraint (AlreadyExists) and leaves the category
store exactly as it was after the first call. -/
theorem c4_add_category_duplicate (st : St) (incoming nm : String)
    (hnm : nm = " ".intercalate ((pySplit incoming).drop 2))
    (h3 : 3 ≤ (pySplit incoming).length)
    (habs : st.categories.any (fun c => c.2 == nm) = false) :
    addCategoryCmd st incoming =
      ("✅ קטגוריה '" ++ nm ++ "' נוספה.",
       { st with categories := st.categories ++ [(st.catNext, nm)], catNext := st.catNext + 1 }) ∧
    addCategoryCmd
        { st with categories := st.categories ++ [(st.catNext, nm)], catNext := st.catNext + 1 }
        incoming =
      ("⚠️ קטגוריה '" ++ nm ++ "' כבר קיימת.",
       { st with categories := st.categories ++ [(st.catNext, nm)], catNext := st.catNext + 1 }) ∧
    (st.categories ++ [(st.catNext, nm)]).length = st.categories.length + 1 := by
  subst hnm
  refine ⟨?_, ?_, by simp⟩
  · unfold addCategoryCmd
    rw [if_neg (by omega), if_neg (by simp [habs])]
  · unfold addCategoryCmd
    rw [if_neg (by omega), if_pos (by simp [List.any_append])]

/-- Witness for C4 at the message "הוספת קטגוריה חינוך" on the seeded
single-category store. -/
theorem c4_add_category_duplicate_witness :
    addCategoryCmd ⟨[(1, "אוכל")], 2, [], 1⟩ "הוספת קטגוריה חינוך" =
      ("✅ קטגוריה 'חינוך' נוספה.", ⟨[(1, "אוכל"), (2, "חינוך")], 3, [], 1⟩) ∧
    addCategoryCmd ⟨[(1, "אוכל"), (2, "חינוך")], 3, [], 1⟩ "הוספת קטגוריה חינוך" =
      ("⚠️ קטגוריה 'חינוך' כבר קיימת.", ⟨[(1, "אוכל"), (2, "חינוך")], 3, [], 1⟩) := by
  have h := c4_add_category_duplicate ⟨[(1, "אוכל")], 2, [], 1⟩ "הוספת קטגוריה חינוך" "חינוך"
    (by decide) (by decide) (by decide)
  exact ⟨h.1.trans (by decide), h.2.1.trans (by decide)⟩

/-- C7: deleting a category whose name is absent from the category store
reports NotFound and leaves the category table unchanged (the whole state,
hence row count and contents, is returned as it was). -/
theorem c7_delete_category_notfound (st : St) (incoming nm : String)
    (hnm : nm = " ".intercalate ((pySplit incoming).drop 2))
    (h3 : 3 ≤ (pySplit incoming).length)
    (habs : st.categories.any (fun c => c.2 == nm) = false) :
    deleteCategoryCmd st incoming = ("⚠️ קטגוריה '" ++ nm ++ "' לא נמצאה.", st) := by
  subst hnm
  unfold deleteCategoryCmd
  rw [if_neg (by omega), if_neg (by simp [habs])]

/-- Witness for C7 at the message "מחיקת קטגוריה חינוך". -/
theorem c7_delete_category_notfound_witness :
    deleteCategoryCmd ⟨[(1, "אוכל")], 2, [], 1⟩ "מחיקת קטגוריה חינוך" =
      ("⚠️ קטגוריה 'חינוך' לא נמצאה.", ⟨[(1, "אוכל")], 2, [], 1⟩) :=
  c7_delete_category_notfound ⟨[(1, "אוכל")], 2, [], 1⟩ "מחיקת קטגוריה חינוך" "חינוך"
    (by decide) (by decide) (by decide)

/-- C8: when the category table is empty at startup, bootstrap inserts
exactly the six literal default names, and listing the categories
afterwards returns exactly those six names in insertion order; when the
table is non-empty, bootstrap inserts nothing. -/
theorem c8_bootstrap_defaults (st : St) :
    (st.categories = [] →
      get_candidate_labels (bootstrap st) = default_categories ∧
      (bootstrap st).categories.length = 6) ∧
    (st.categories ≠ [] → bootstrap st = st) := by
  constructor
  · intro h
    obtain ⟨cats, cn, exps, en⟩ := st
    simp only at h
    subst h
    constructor
    · simp [bootstrap, default_categories, get_candidate_labels]
    · simp [bootstrap, default_categories]
  · intro h
    unfold bootstrap
    rw [if_neg (by simpa [List.length_eq_zero] using h)]

/-- Witness for C8 on the empty store and on a non-empty store. -/
theorem c8_bootstrap_defaults_witness :
    (get_candidate_labels (bootstrap ⟨[], 1, [], 1⟩) = default_categories ∧
      (bootstrap ⟨[], 1, [], 1⟩).categories.length = 6) ∧
    bootstrap ⟨[(1, "אוכל")], 2, [], 1⟩ = ⟨[(1, "אוכל")], 2, [], 1⟩ :=
  ⟨(c8_bootstrap_defaults ⟨[], 1, [], 1⟩).1 rfl,
   (c8_bootstrap_defaults ⟨[(1, "אוכל")], 2, [], 1⟩).2 (by decide)⟩

/-- C1: an inbound message that begins with none of the six command
keywords gets the fixed help reply when it contains no digit character,
and is otherwise rewritten by prepending the expense-entry keyword and
re-dispatched, which lands in the expense-entry handler. -/
theorem c1_no_keyword_fallback (classify : String → List String → String) (now : String)
    (st : St) (body : String)
    (h1 : pyStartswith (pyLower (pyStrip body)) "הוצאה" = false)
    (h2 : pyStartswith (pyLower (pyStrip body)) "סיכום" = false)
    (h3 : pyStartswith (pyLower (pyStrip body)) "רשימת קטגוריות" = false)
    (h4 : pyStartswith (pyLower (pyStrip body)) "הוספת קטגוריה" = false)
    (h5 : pyStartswith (pyLower (pyStrip body)) "מחיקת קטגוריה" = false)
    (h6 : pyStartswith (pyLower (pyStrip body)) "מחיקה " = false) :
    ((pyStrip body).data.any Char.isDigit = false →
      whatsapp classify now st body = (help_message, st)) ∧
    ((pyStrip body).data.any Char.isDigit = true →
      whatsapp classify now st body =
        whatsappDispatch classify now st ("הוצאה " ++ pyStrip body) ∧
      whatsappDispatch classify now st ("הוצאה " ++ pyStrip body) =
        expenseEntry classify now st ("הוצאה " ++ pyStrip body)) := by
  have hdisp : whatsappDispatch classify now st ("הוצאה " ++ pyStrip body) =
      expenseEntry classify now st ("הוצאה " ++ pyStrip body) := by
    unfold whatsappDispatch
    rw [if_pos (pyStartswith_append_keyword "הוצאה" "הוצאה " (pyStrip body)
      (by decide) (by decide))]
  constructor
  · intro hd
    simp only [whatsapp]
    rw [h1, h2, h3, h4, h5, h6, hd]
    rfl
  · intro hd
    refine ⟨?_, hdisp⟩
    simp only [whatsapp]
    rw [h1, h2, h3, h4, h5, h6, hd]
    rfl

/-- Witness for C1: the digit-free message "שלום" gets the help reply,
and the digit-bearing message "קפה 12" is re-dispatched as an implicit
expense entry. -/
theorem c1_no_keyword_fallback_witness :
    whatsapp (fun _ _ => "אחר") "2025-01-15 10:00:00" ⟨[(1, "אוכל")], 2, [], 1⟩ "שלום" =
      (help_message, ⟨[(1, "אוכל")], 2, [], 1⟩) ∧
    whatsapp (fun _ _ => "אחר") "2025-01-15 10:00:00" ⟨[(1, "אוכל")], 2, [], 1⟩ "קפה 12" =
      expenseEntry (fun _ _ => "אחר") "2025-01-15 10:00:00" ⟨[(1, "אוכל")], 2, [], 1⟩
        ("הוצאה " ++ pyStrip "קפה 12") := by
  constructor
  · exact (c1_no_keyword_fallback (fun _ _ => "אחר") "2025-01-15 10:00:00"
      ⟨[(1, "אוכל")], 2, [], 1⟩ "שלום" (by decide) (by decide) (by decide) (by decide)
      (by decide) (by decide)).1 (by decide)
  · have h := (c1_no_keyword_fallback (fun _ _ => "אחר") "2025-01-15 10:00:00"
      ⟨[(1, "אוכל")], 2, [], 1⟩ "קפה 12" (by decide) (by decide) (by decide) (by decide)
      (by decide) (by decide)).2 (by decide)
    exact h.1.trans h.2

/-- C10: a request body that is empty or consists only of whitespace
(the missing-field case defaults to the empty string before stripping)
gets the fixed help reply and leaves the stores untouched. -/
theorem c10_blank_body_help (classify : String → List String → String) (now : String)
    (st : St) (body : String) (h : body.data.all Char.isWhitespace = true) :
    whatsapp classify now st body = (help_message, st) := by
  have hstrip : pyStrip body = "" := by
    unfold pyStrip
    have h1 : body.data.dropWhile Char.isWhitespace = [] := by
      rw [List.dropWhile_eq_nil_iff]
      intro x hx
      exact List.all_eq_true.mp h x hx
    rw [h1]
    rfl
  unfold whatsapp
  rw [hstrip]
  rfl

/-- Witness for C10 at the whitespace-only body "   " (and, by the same
theorem, the empty body). -/
theorem c10_blank_body_help_witness :
    whatsapp (fun _ _ => "אחר") "2025-01-15 10:00:00" ⟨[(1, "אוכל")], 2, [], 1⟩ "   " =
      (help_message, ⟨[(1, "אוכל")], 2, [], 1⟩) ∧
    whatsapp (fun _ _ => "אחר") "2025-01-15 10:00:00" ⟨[(1, "אוכל")], 2, [], 1⟩ "" =
      (help_message, ⟨[(1, "אוכל")], 2, [], 1⟩) :=
  ⟨c10_blank_body_help (fun _ _ => "אחר") "2025-01-15 10:00:00" ⟨[(1, "אוכל")], 2, [], 1⟩
      "   " (by decide),
   c10_blank_body_help (fun _ _ => "אחר") "2025-01-15 10:00:00" ⟨[(1, "אוכל")], 2, [], 1⟩
      "" (by decide)⟩

/-- C9: command recognition is pure prefix matching on the lowercased
message: for five of the six keywords any message whose lowercased text
merely begins with the keyword characters (no word boundary required,
e.g. the keyword immediately followed by more letters) is dispatched to
that keyword's handler; only the delete-expense keyword is matched with
a trailing space, so a message beginning with that word but not followed
by a space falls through to the help reply. -/
theorem c9_prefix_dispatch (classify : String → List String → String) (now : String)
    (st : St) (incoming : String) :
    (pyStartswith (pyLower incoming) "הוצאה" = true →
      whatsappDispatch classify now st incoming = expenseEntry classify now st incoming) ∧
    (pyStartswith (pyLower incoming) "סיכום" = true →
      whatsappDispatch classify now st incoming = summaryCmd now st) ∧
    (pyStartswith (pyLower incoming) "רשימת קטגוריות" = true →
      whatsappDispatch classify now st incoming = listCategoriesCmd st) ∧
    (pyStartswith (pyLower incoming) "הוספת קטגוריה" = true →
      whatsappDispatch classify now st incoming = addCategoryCmd st incoming) ∧
    (pyStartswith (pyLower incoming) "מחיקת קטגוריה" = true →
      whatsappDispatch classify now st incoming = deleteCategoryCmd st incoming) ∧
    (pyStartswith (pyLower incoming) "מחיקה " = true →
      whatsappDispatch classify now st incoming = deleteExpenseCmd st incoming) ∧
    (pyStartswith (pyLower incoming) "מחיקה" = true →
      pyStartswith (pyLower incoming) "מחיקה " = false →
      whatsappDispatch classify now st incoming = (help_message, st)) ∧
    (∀ rest : String,
      whatsappDispatch classify now st ("הוצאה" ++ rest) =
        expenseEntry classify now st ("הוצאה" ++ rest)) := by
  refine ⟨?_, ?_, ?_, ?_, ?_, ?_, ?_, ?_⟩
  · intro h
    simp only [whatsappDispatch]
    rw [h]
    rfl
  · intro h
    have f1 := pyStartswith_excl "הוצאה" h (by decide) (by decide)
    simp only [whatsappDispatch]
    rw [f1, h]
    rfl
  · intro h
    have f1 := pyStartswith_excl "הוצאה" h (by decide) (by decide)
    have f2 := pyStartswith_excl "סיכום" h (by decide) (by decide)
    simp only [whatsappDispatch]
    rw [f1, f2, h]
    rfl
  · intro h
    have f1 := pyStartswith_excl "הוצאה" h (by decide) (by decide)
    have f2 := pyStartswith_excl "סיכום" h (by decide) (by decide)
    have f3 := pyStartswith_excl "רשימת קטגוריות" h (by decide) (by decide)
    simp only [whatsappDispatch]
    rw [f1, f2, f3, h]
    rfl
  · intro h
    have f1 := pyStartswith_excl "הוצאה" h (by decide) (by decide)
    have f2 := pyStartswith_excl "סיכום" h (by decide) (by decide)
    have f3 := pyStartswith_excl "רשימת קטגוריות" h (by decide) (by decide)
    have f4 := pyStartswith_excl "הוספת קטגוריה" h (by decide) (by decide)
    simp only [whatsappDispatch]
    rw [f1, f2, f3, f4, h]
    rfl
  · intro h
    have f1 := pyStartswith_excl "הוצאה" h (by decide) (by decide)
    have f2 := pyStartswith_excl "סיכום" h (by decide) (by decide)
    have f3 := pyStartswith_excl "רשימת קטגוריות" h (by decide) (by decide)
    have f4 := pyStartswith_excl "הוספת קטגוריה" h (by decide) (by decide)
    have f5 := pyStartswith_excl "מחיקת קטגוריה" h (by decide) (by decide)
    simp only [whatsappDispatch]
    rw [f1, f2, f3, f4, f5, h]
    rfl
  · intro h hn
    have f1 := pyStartswith_excl "הוצאה" h (by decide) (by decide)
    have f2 := pyStartswith_excl "סיכום" h (by decide) (by decide)
    have f3 := pyStartswith_excl "רשימת קטגוריות" h (by decide) (by decide)
    have f4 := pyStartswith_excl "הוספת קטגוריה" h (by decide) (by decide)
    have f5 := pyStartswith_excl "מחיקת קטגוריה" h (by decide) (by decide)
    simp only [whatsappDispatch]
    rw [f1, f2, f3, f4, f5, hn]
    rfl
  · intro rest
    simp only [whatsappDispatch]
    rw [pyStartswith_append_keyword "הוצאה" "הוצאה" rest (by decide) (by decide)]
    rfl

/-- Witness for C9: a keyword glued to further letters still dispatches
("סיכוםABC" reaches the summary handler), and the delete keyword without
its trailing space does not reach the delete handler ("מחיקהX 5" gets
the help reply from the dispatch). -/
theorem c9_prefix_dispatch_witness :
    whatsappDispatch (fun _ _ => "אחר") "2025-01-15 10:00:00" ⟨[(1, "אוכל")], 2, [], 1⟩
        "סיכוםABC" =
      summaryCmd "2025-01-15 10:00:00" ⟨[(1, "אוכל")], 2, [], 1⟩ ∧
    whatsappDispatch (fun _ _ => "אחר") "2025-01-15 10:00:00" ⟨[(1, "אוכל")], 2, [], 1⟩
        "מחיקהX 5" =
      (help_message, ⟨[(1, "אוכל")], 2, [], 1⟩) :=
  ⟨(c9_prefix_dispatch (fun _ _ => "אחר") "2025-01-15 10:00:00" ⟨[(1, "אוכל")], 2, [], 1⟩
      "סיכוםABC").2.1 (by decide),
   (c9_prefix_dispatch (fun _ _ => "אחר") "2025-01-15 10:00:00" ⟨[(1, "אוכל")], 2, [], 1⟩
      "מחיקהX 5").2.2.2.2.2.2.1 (by decide) (by decide)⟩

/-- C5: after a valid add_expense call, the monthly sum for the same
calendar month maps the expense's category to its previous total plus
the added amount; and when no expense rows fall in the queried month the
aggregation is the empty mapping, rendered by the summary command as the
no-expenses reply. -/
theorem c5_sum_by_category_add (st : St) (nm cat now : String) (amt : Rat) :
    List.lookup cat
        (sumByCategory (add_expense st nm amt cat now).expenses (takeYM now)) =
      some (categoryTotal st.expenses (takeYM now) cat + amt) ∧
    (monthRows st.expenses (takeYM now) = [] →
      sumByCategory st.expenses (takeYM now) = [] ∧
      summaryCmd now st = ("אין הוצאות רשומות עבור " ++ strftimeB now ++ " עדיין.", st)) := by
  constructor
  · have hmr : monthRows (add_expense st nm amt cat now).expenses (takeYM now) =
        monthRows st.expenses (takeYM now) ++ [⟨st.expNext, nm, amt, cat, now⟩] := by
      show monthRows (st.expenses ++ [⟨st.expNext, nm, amt, cat, now⟩]) (takeYM now) = _
      unfold monthRows
      rw [List.filter_append]
      simp
    have hmem : cat ∈ firstOccs
        ((monthRows (add_expense st nm amt cat now).expenses (takeYM now)).map
          (fun e => e.category)) := by
      rw [hmr]
      refine mem_firstOccs.mpr ?_
      simp
    have htot : categoryTotal (add_expense st nm amt cat now).expenses (takeYM now) cat =
        categoryTotal st.expenses (takeYM now) cat + amt := by
      unfold categoryTotal
      rw [hmr, List.filter_append, List.map_append, List.sum_append]
      simp
    have hlk := lookup_keyed_map
      (fun c => categoryTotal (add_expense st nm amt cat now).expenses (takeYM now) c)
      cat _ hmem
    unfold sumByCategory
    rw [hlk]
    exact congrArg some htot
  · intro h
    have hempty : sumByCategory st.expenses (takeYM now) = [] := by
      unfold sumByCategory
      rw [h]
      rfl
    refine ⟨hempty, ?_⟩
    simp only [summaryCmd]
    rw [hempty]
    rfl

/-- Witness for C5 on a store holding one same-month expense: the new
amount is added onto the existing bucket, and on the empty store the
summary renders the no-expenses reply. -/
theorem c5_sum_by_category_add_witness :
    List.lookup "אחר"
        (sumByCategory
          (add_expense
            ⟨[(1, "אוכל")], 2, [⟨1, "תה", mkRat 3 1, "אחר", "2025-01-02 09:00:00"⟩], 2⟩
            "קפה" (mkRat 25 2) "אחר" "2025-01-15 10:00:00").expenses
          (takeYM "2025-01-15 10:00:00")) =
      some (mkRat 31 2) ∧
    summaryCmd "2025-01-15 10:00:00" ⟨[(1, "אוכל")], 2, [], 1⟩ =
      ("אין הוצאות רשומות עבור January עדיין.", ⟨[(1, "אוכל")], 2, [], 1⟩) := by
  constructor
  · have h := (c5_sum_by_category_add
      ⟨[(1, "אוכל")], 2, [⟨1, "תה", mkRat 3 1, "אחר", "2025-01-02 09:00:00"⟩], 2⟩
      "קפה" "אחר" "2025-01-15 10:00:00" (mkRat 25 2)).1
    rw [h]
    with_unfolding_all decide
  · have h := ((c5_sum_by_category_add ⟨[(1, "אוכל")], 2, [], 1⟩
      "קפה" "אחר" "2025-01-15 10:00:00" (mkRat 25 2)).2 (by decide)).2
    rw [h]
    decide

/-- C3: for a well-formed delete-expense message, when some stored row
matches name and amount exactly, the command deletes exactly the
selected row, which is a matching row no other matching row postdates
(so with distinct creation timestamps only the most recent one is
removed and all older rows, in particular an older duplicate, survive —
row identity via the unique ids); when no stored row matches, it reports
NotFound and the state is returned unchanged. -/
theorem c3_delete_latest_matching (st : St) (incoming nm : String) (amt : Rat)
    (hnm : nm = " ".intercalate (((pySplit incoming).drop 1).dropLast))
    (h3 : 3 ≤ (pySplit incoming).length)
    (hamt : pyFloat ((pySplit incoming).getLastD "") = some amt) :
    (∀ r, selectLatest st.expenses nm amt = some r →
      deleteExpenseCmd st incoming =
        ("✅ הוצאה '" ++ nm ++ "' בסכום ₪" ++ fmt2 amt ++ " נמחקה.",
         { st with expenses := st.expenses.filter (fun e => e.id ≠ r.id) }) ∧
      r ∈ st.expenses ∧ r.name = nm ∧ r.amount = amt ∧
      (∀ e ∈ st.expenses, e.name = nm → e.amount = amt → strLtb r.date e.date = false) ∧
      ((st.expenses.map (fun e => e.id)).Nodup →
        ∀ e ∈ st.expenses, e ≠ r → e ∈ st.expenses.filter (fun e => e.id ≠ r.id))) ∧
    ((∀ e ∈ st.expenses, ¬ (e.name = nm ∧ e.amount = amt)) →
      deleteExpenseCmd st incoming =
        ("⚠️ לא נמצאה הוצאה תואמת בשם '" ++ nm ++ "' עם סכום ₪" ++ fmt2 amt ++ ".", st)) := by
  subst hnm
  constructor
  · intro r hr
    have hspec := selectLatest_some_spec st.expenses _ amt r hr
    refine ⟨?_, hspec.1, hspec.2.1, hspec.2.2.1, hspec.2.2.2, ?_⟩
    · have hlen : ¬ (pySplit incoming).length < 3 := by omega
      simp only [deleteExpenseCmd, if_neg hlen, hamt, hr]
    · intro hnd e he hne
      refine List.mem_filter.mpr ⟨he, ?_⟩
      rw [decide_eq_true_eq]
      intro heq
      exact hne (List.inj_on_of_nodup_map hnd he hspec.1 heq)
  · intro hno
    have hsel := selectLatest_none_of_no_match st.expenses _ amt hno
    have hlen : ¬ (pySplit incoming).length < 3 := by omega
    simp only [deleteExpenseCmd, if_neg hlen, hamt, hsel]

/-- Witness for C3 on a store with two rows of identical name and amount
but distinct creation dates: only the newer row (id 2) is deleted and
the older row survives; and on the empty store the command reports
NotFound. -/
theorem c3_delete_latest_matching_witness :
    deleteExpenseCmd
        ⟨[], 1, [⟨1, "קפה", mkRat 25 2, "אחר", "2025-01-01 10:00:00"⟩,
                 ⟨2, "קפה", mkRat 25 2, "אחר", "2025-01-02 10:00:00"⟩], 3⟩
        "מחיקה קפה 12.5" =
      ("✅ הוצאה 'קפה' בסכום ₪12.50 נמחקה.",
       ⟨[], 1, [⟨1, "קפה", mkRat 25 2, "אחר", "2025-01-01 10:00:00"⟩], 3⟩) ∧
    deleteExpenseCmd ⟨[], 1, [], 1⟩ "מחיקה קפה 12.5" =
      ("⚠️ לא נמצאה הוצאה תואמת בשם 'קפה' עם סכום ₪12.50.", ⟨[], 1, [], 1⟩) := by
  constructor
  · have h := ((c3_delete_latest_matching
      ⟨[], 1, [⟨1, "קפה", mkRat 25 2, "אחר", "2025-01-01 10:00:00"⟩,
               ⟨2, "קפה", mkRat 25 2, "אחר", "2025-01-02 10:00:00"⟩], 3⟩
      "מחיקה קפה 12.5" "קפה" (mkRat 25 2) (by decide) (by decide) (by decide)).1
      ⟨2, "קפה", mkRat 25 2, "אחר", "2025-01-02 10:00:00"⟩ (by decide)).1
    exact h.trans (by decide)
  · have h := (c3_delete_latest_matching ⟨[], 1, [], 1⟩
      "מחיקה קפה 12.5" "קפה" (mkRat 25 2) (by decide) (by decide) (by decide)).2
      (by decide)
    exact h.trans (by decide)

end ExpenseBot
